import Mathlib

/-!
Verification of the `privsep-rs` imsg framing protocol, ancillary-data plane
and parent/child process lifecycle, via a shallow embedding of the Rust
sources (`src/privsep/src/imsg.rs`, `src/privsep/src/net/ancillary.rs`,
`src/privsep/src/process.rs`) into Lean.

Bytes are modelled as natural numbers below 256 in `List Nat`; machine
integers are `Nat` with explicit `% 2^w` / bound checks where the source
performs conversions (`u16::try_from`, `u32::try_from`, `as u32`).  The
target is 64-bit Linux (`x86_64-unknown-linux-gnu`): `size_of::<RawFd>() = 4`,
`size_of::<cmsghdr>() = 16`, `SOL_SOCKET = 1`, `SCM_RIGHTS = 1`, native byte
order little-endian.
-/

namespace Privsep

/-- Little-endian encoding of `v` into `w` bytes (`v % 256^w` is represented). -/
def toLE : Nat → Nat → List Nat
  | 0, _ => []
  | w + 1, v => v % 256 :: toLE w (v / 256)

/-- Little-endian decoding of a byte list. -/
def fromLE : List Nat → Nat
  | [] => 0
  | b :: rest => b + 256 * fromLE rest

theorem length_toLE (w v : Nat) : (toLE w v).length = w := by
  induction w generalizing v with
  | zero => rfl
  | succ w ih => simp [toLE, ih]

theorem fromLE_toLE (w v : Nat) : fromLE (toLE w v) = v % 256 ^ w := by
  induction w generalizing v with
  | zero => simp [toLE, fromLE, Nat.mod_one]
  | succ w ih =>
    simp only [toLE, fromLE, ih]
    rw [Nat.pow_succ', Nat.mod_mul]

theorem fromLE_toLE_of_lt {w v : Nat} (h : v < 256 ^ w) :
    fromLE (toLE w v) = v := by
  rw [fromLE_toLE, Nat.mod_eq_of_lt h]

/--
The imsg message header, from `struct Message` in `imsg.rs` (`repr(C)`, 16
bytes: `id: u32`, `length: u16`, `flags: u16`, `peer_id: u32`, `pid: pid_t`).
Fields hold the numeric value of the corresponding machine integer.
-/
structure Message where
  id : Nat
  length : Nat
  flags : Nat
  peer_id : Nat
  pid : Nat
  deriving DecidableEq, Repr

/-- `Message::RESERVED`: reserved IDs, used by the check `message.id < RESERVED`. -/
def Message.RESERVED : Nat := 10

/-- `Message::HEADER_LENGTH = size_of::<Message>()`. -/
def Message.HEADER_LENGTH : Nat := 16

/-- `Message::new(id)`: length starts at the header size, flags and peer_id
default to zero, pid is stamped with the caller's `getpid()`. -/
def Message.new (pid id : Nat) : Message :=
  { id := id % 2 ^ 32, length := Message.HEADER_LENGTH, flags := 0,
    peer_id := 0, pid := pid % 2 ^ 32 }

/-- `Message::connect(peer_id)`: `Self { peer_id: peer_id as u32, ..Self::new(1u32) }`. -/
def Message.connect (pid peer_id : Nat) : Message :=
  { Message.new pid 1 with peer_id := peer_id % 2 ^ 32 }

/-- `zerocopy::AsBytes` view of a header: the five fields in declaration
order, native (little-endian) byte order, no padding. -/
def headerBytes (m : Message) : List Nat :=
  toLE 4 m.id ++ toLE 2 m.length ++ toLE 2 m.flags ++ toLE 4 m.peer_id ++ toLE 4 m.pid

theorem length_headerBytes (m : Message) : (headerBytes m).length = 16 := by
  simp [headerBytes, length_toLE]

/-- `zerocopy::FromBytes` view: reconstruct a header from the first 16 bytes
of a buffer (`message.as_bytes_mut().copy_from_slice(&buf[..HEADER_LENGTH])`). -/
def parseHeader (buf : List Nat) : Message :=
  { id := fromLE (buf.take 4)
    length := fromLE ((buf.drop 4).take 2)
    flags := fromLE ((buf.drop 6).take 2)
    peer_id := fromLE ((buf.drop 8).take 4)
    pid := fromLE ((buf.drop 12).take 4) }

/-- A header whose fields are in range round-trips through its byte view. -/
theorem parseHeader_headerBytes (m : Message) (rest : List Nat)
    (hid : m.id < 2 ^ 32) (hlen : m.length < 2 ^ 16) (hfl : m.flags < 2 ^ 16)
    (hpe : m.peer_id < 2 ^ 32) (hpi : m.pid < 2 ^ 32) :
    parseHeader (headerBytes m ++ rest) = m := by
  have h4 : ∀ v r, ((toLE 4 v ++ r).take 4) = toLE 4 v := by
    intro v r; exact List.take_left' (length_toLE 4 v)
  have d4 : ∀ v r, ((toLE 4 v ++ r : List Nat).drop 4) = r := by
    intro v r; exact List.drop_left' (length_toLE 4 v)
  have h2 : ∀ v r, ((toLE 2 v ++ r).take 2) = toLE 2 v := by
    intro v r; exact List.take_left' (length_toLE 2 v)
  have d2 : ∀ v r, ((toLE 2 v ++ r : List Nat).drop 2) = r := by
    intro v r; exact List.drop_left' (length_toLE 2 v)
  have e6 : ∀ l : List Nat, l.drop 6 = (l.drop 4).drop 2 := by
    intro l; rw [List.drop_drop]
  have e8 : ∀ l : List Nat, l.drop 8 = ((l.drop 4).drop 2).drop 2 := by
    intro l; rw [List.drop_drop, List.drop_drop]
  have e12 : ∀ l : List Nat, l.drop 12 = (((l.drop 4).drop 2).drop 2).drop 4 := by
    intro l; rw [List.drop_drop, List.drop_drop, List.drop_drop]
  simp only [headerBytes, List.append_assoc, parseHeader]
  rw [e6, e8, e12, h4, d4, h2, d2, h2, d2, h4, d4, h4]
  have b16 : (256 : Nat) ^ 2 = 2 ^ 16 := by norm_num
  have b32 : (256 : Nat) ^ 4 = 2 ^ 32 := by norm_num
  cases m with
  | mk id length flags peer_id pid =>
    simp only at hid hlen hfl hpe hpi
    congr 1 <;> rw [fromLE_toLE] <;> apply Nat.mod_eq_of_lt
    · rw [b32]; exact hid
    · rw [b16]; exact hlen
    · rw [b16]; exact hfl
    · rw [b32]; exact hpe
    · rw [b32]; exact hpi

/-! ### Ancillary-data plane (`net/ancillary.rs`), 64-bit Linux constants -/

/-- `CMSG_ALIGN(x)` on Linux x86-64: round up to a multiple of 8. -/
def cmsgAlign (x : Nat) : Nat := (x + 7) / 8 * 8

/-- `size_of::<cmsghdr>()` on 64-bit Linux (`cmsg_len: u64`, `cmsg_level: i32`,
`cmsg_type: i32`). -/
def cmsgHdrSize : Nat := 16

/-- `CMSG_SPACE(l) = CMSG_ALIGN(l) + CMSG_ALIGN(sizeof(cmsghdr))`. -/
def cmsgSpace (l : Nat) : Nat := cmsgAlign l + cmsgAlign cmsgHdrSize

/-- `CMSG_LEN(l) = CMSG_ALIGN(sizeof(cmsghdr)) + l`. -/
def cmsgLen (l : Nat) : Nat := cmsgAlign cmsgHdrSize + l

/-- `libc::SOL_SOCKET` on Linux. -/
def SOL_SOCKET : Nat := 1

/-- `libc::SCM_RIGHTS` on Linux. -/
def SCM_RIGHTS : Nat := 1

/-- `SocketAncillary`: a caller-provided byte buffer, the used length, and the
truncation flag. -/
structure SocketAncillary where
  buffer : List Nat
  length : Nat
  truncated : Bool
  deriving DecidableEq, Repr

/-- `SocketAncillary::new(buffer)`. -/
def SocketAncillary.new (buffer : List Nat) : SocketAncillary :=
  { buffer := buffer, length := 0, truncated := false }

/-- Overwrite `buf[pos .. pos + bytes.length)` with `bytes` (the effect of the
raw-pointer writes / `memcpy` in `add_to_ancillary_data`). -/
def writeBytes (buf : List Nat) (pos : Nat) (bytes : List Nat) : List Nat :=
  buf.take pos ++ bytes ++ buf.drop (pos + bytes.length)

/-- `CMSG_NXTHDR(msg, cmsg)` (glibc): `None` models the null pointer.  Reads
the current record's `cmsg_len` from the buffer; a record shorter than a
`cmsghdr` or a successor that does not fit in `msg_controllen` ends the walk. -/
def nxtHdr (buffer : List Nat) (controllen pos : Nat) : Option Nat :=
  let len := fromLE ((buffer.drop pos).take 8)
  if len < cmsgHdrSize then none
  else
    let next := pos + cmsgAlign len
    if next + cmsgHdrSize > controllen then none
    else if next + cmsgAlign (fromLE ((buffer.drop next).take 8)) > controllen then none
    else some next

/-- The `previous_cmsg` walk of `add_to_ancillary_data`: follow `CMSG_NXTHDR`
from `pos`, stopping on null or when the next pointer equals the current one
(the zero-length-record OS quirk guarded in the source). -/
def lastCmsgAux (buffer : List Nat) (controllen : Nat) : Nat → Nat → Nat
  | 0, pos => pos
  | fuel + 1, pos =>
    match nxtHdr buffer controllen pos with
    | none => pos
    | some next => if next = pos then pos else lastCmsgAux buffer controllen fuel next

/-- Offset of the last `cmsghdr` reachable from `CMSG_FIRSTHDR`; `none` models
the `previous_cmsg.is_null()` case (possible only when `controllen` is smaller
than one `cmsghdr`). -/
def lastCmsg (buffer : List Nat) (controllen : Nat) : Option Nat :=
  if cmsgHdrSize ≤ controllen then some (lastCmsgAux buffer controllen controllen 0)
  else none

/-- `add_to_ancillary_data`, specialised to a source slice of `RawFd`
(element size 4).  Returns the success flag together with the new buffer
contents and the new used length.  Mirrors the source's order of checks:
`checked_mul` on a 64-bit `usize`, `u32::try_from`, `checked_add`, capacity,
then zero-fill, `*length = new_length`, the header walk, and the writes.
`libc::CMSG_SPACE` and `libc::CMSG_LEN` take and return `c_uint`, so their
results wrap modulo `2^32` before the `as usize` / `as size_t` conversions
(`let additional_space = libc::CMSG_SPACE(source_len) as usize`,
`(*previous_cmsg).cmsg_len = libc::CMSG_LEN(source_len) as libc::size_t`);
for `source_len` close to `2^32` the wrapped space is tiny, the capacity
check can pass, and the subsequent `memcpy` of `source_len` bytes overruns
the buffer (undefined behaviour in the source; the model's `writeBytes`
writes the bytes without a bound). -/
def addToAncillaryData (buffer : List Nat) (length : Nat) (source : List Nat)
    (cmsg_level cmsg_type : Nat) : Bool × List Nat × Nat :=
  let sourceLenRaw := source.length * 4
  if sourceLenRaw ≥ 2 ^ 64 then (false, buffer, length)
  else if ¬ sourceLenRaw < 2 ^ 32 then (false, buffer, length)
  else
    let source_len := sourceLenRaw
    let additional_space := cmsgSpace source_len % 2 ^ 32
    if additional_space + length ≥ 2 ^ 64 then (false, buffer, length)
    else
      let new_length := additional_space + length
      if new_length > buffer.length then (false, buffer, length)
      else
        let buffer1 := writeBytes buffer length (List.replicate (new_length - length) 0)
        match lastCmsg buffer1 new_length with
        | none => (false, buffer1, new_length)
        | some pos =>
          let buffer2 := writeBytes buffer1 pos (toLE 8 (cmsgLen source_len % 2 ^ 32))
          let buffer3 := writeBytes buffer2 (pos + 8) (toLE 4 cmsg_level)
          let buffer4 := writeBytes buffer3 (pos + 12) (toLE 4 cmsg_type)
          let buffer5 := writeBytes buffer4 (pos + cmsgHdrSize) (source.flatMap (toLE 4))
          (true, buffer5, new_length)

/-- `SocketAncillary::add_fds`: clears `truncated`, then appends an
`SCM_RIGHTS` control message via `add_to_ancillary_data`. -/
def SocketAncillary.addFds (anc : SocketAncillary) (fds : List Nat) :
    Bool × SocketAncillary :=
  let anc0 : SocketAncillary := { anc with truncated := false }
  let r := addToAncillaryData anc0.buffer anc0.length fds SOL_SOCKET SCM_RIGHTS
  (r.1, { anc0 with buffer := r.2.1, length := r.2.2 })

/-- The `AncillaryDataIter<RawFd>` loop: read 4-byte units while at least one
whole unit remains.  The fuel argument only bounds the iteration count; each
step consumes 4 bytes, so `data.length` steps always suffice. -/
def scmRightsFdsAux : Nat → List Nat → List Nat
  | 0, _ => []
  | fuel + 1, data =>
    if 4 ≤ data.length then fromLE (data.take 4) :: scmRightsFdsAux fuel (data.drop 4)
    else []

/-- The descriptors of one `ScmRights` control message. -/
def scmRightsFds (data : List Nat) : List Nat := scmRightsFdsAux data.length data

/-- The `Messages` iterator: starting at a `cmsghdr` offset, emit
`(cmsg_level, cmsg_type, data)` triples following `CMSG_NXTHDR`, with the
equal-pointer guard. -/
def messagesFrom (buffer : List Nat) (controllen : Nat) : Nat → Nat → List (Nat × Nat × List Nat)
  | 0, _ => []
  | fuel + 1, pos =>
    let len := fromLE ((buffer.drop pos).take 8)
    let item := (fromLE ((buffer.drop (pos + 8)).take 4),
                 fromLE ((buffer.drop (pos + 12)).take 4),
                 (buffer.drop (pos + cmsgHdrSize)).take (len - cmsgLen 0))
    item ::
      match nxtHdr buffer controllen pos with
      | none => []
      | some next => if next = pos then [] else messagesFrom buffer controllen fuel next

/-- `SocketAncillary::messages()`: iterate the control messages in
`buffer[..length]`, beginning at `CMSG_FIRSTHDR`. -/
def ancMessages (anc : SocketAncillary) : List (Nat × Nat × List Nat) :=
  if cmsgHdrSize ≤ anc.length then messagesFrom anc.buffer anc.length anc.length 0
  else []

/-- The flattened `SCM_RIGHTS` descriptor sequence of an ancillary buffer:
`messages().flatten()` keeps the well-classified records, and the receiver
loop in `recv_message` visits the FDs of every `ScmRights` record in order. -/
def ancScmRightsFds (anc : SocketAncillary) : List Nat :=
  ((ancMessages anc).filterMap fun c =>
    if c.1 = SOL_SOCKET ∧ c.2.1 = SCM_RIGHTS then some (scmRightsFds c.2.2) else none).flatten

/-- The FD loop of `recv_message` (`imsg.rs` lines 173-187): wrap each raw FD
in an owned `Fd`; retain the first one, every later one is dropped — and
`Fd::drop` closes it — at the end of its iteration.  Returns the retained
descriptor and the list of closed descriptors, in order. -/
def scanFds : List Nat → Option Nat → Option Nat × List Nat
  | [], acc => (acc, [])
  | f :: rest, acc =>
    match acc with
    | none => scanFds rest (some f)
    | some r =>
      let t := scanFds rest (some r)
      (t.1, f :: t.2)

/-! ### Imsg handler (`imsg.rs`) -/

/-- `io::ErrorKind` values used by the handler. -/
inductive ErrorKind where
  | other
  | notConnected
  | invalidData
  | writeZero
  deriving DecidableEq, Repr

/-- Observable state of a `Handler`: the shutdown flag and the read buffer.
(The socket itself is the transport, modelled by the byte lists passed to the
send/receive functions.) -/
structure HandlerState where
  shutdown : Bool
  readBuffer : List Nat
  deriving DecidableEq, Repr

/-- `Handler::shutdown()`: closes the socket (side effect on the kernel FD,
ignored errors) and stores `true` in the shutdown flag; the read buffer is
untouched. -/
def HandlerState.shutdownOp (st : HandlerState) : HandlerState :=
  { st with shutdown := true }

/-- Outcome of one send: the bytes written to the socket, the ancillary data
attached to the `sendmsg` call, and the result.  An error before `sendmsg`
leaves `wire = []` (no bytes hit the wire). -/
structure SendResult where
  wire : List Nat
  anc : SocketAncillary
  result : Except ErrorKind Unit
  deriving Repr

/-- `Handler::BUFFER_LENGTH`-sized ancillary is not used for sending; sends use
a 128-byte ancillary buffer. -/
def emptySendAncillary : SocketAncillary := SocketAncillary.new (List.replicate 128 0)

/-- `Handler::send_message_internal`.  `data` is the `bincode`-serialized
payload (serialization itself is total for serializable values); `senderPid`
is `getpid()`.  Mirrors: shutdown check, pid stamp,
`length = u16::try_from(data.len() + message.length)`, building the iovec
(header always, payload iff non-empty — the concatenated bytes are the same),
`add_fds` into a fresh 128-byte ancillary buffer, the `sendmsg` write, and the
short-message check `written != message_length`. -/
def sendMessageInternal (st : HandlerState) (message : Message) (fd : Option Nat)
    (data : List Nat) (senderPid : Nat) : SendResult :=
  if st.shutdown then
    { wire := [], anc := emptySendAncillary, result := .error .notConnected }
  else
    let message1 := { message with pid := senderPid % 2 ^ 32 }
    if data.length + message1.length < 2 ^ 16 then
      let message2 := { message1 with length := data.length + message1.length }
      let message_length := message2.length
      let anc0 := emptySendAncillary
      let addR := match fd with
        | some f => anc0.addFds [f]
        | none => (true, anc0)
      if addR.1 = false then
        { wire := [], anc := addR.2, result := .error .other }
      else
        let wire := headerBytes message2 ++ data
        if wire.length ≠ message_length then
          { wire := wire, anc := addR.2, result := .error .writeZero }
        else
          { wire := wire, anc := addR.2, result := .ok () }
    else
      { wire := [], anc := emptySendAncillary, result := .error .invalidData }

/-- Public `Handler::send_message`: rejects `message.id < Message::RESERVED`
before anything else. -/
def sendMessage (st : HandlerState) (message : Message) (fd : Option Nat)
    (data : List Nat) (senderPid : Nat) : SendResult :=
  if message.id < Message.RESERVED then
    { wire := [], anc := emptySendAncillary, result := .error .other }
  else
    sendMessageInternal st message fd data senderPid

/-- The buffered fast path of the `recv_message` loop: if the buffer holds a
complete header and `buf.len() >= header.length`, consume
(`split_to`) exactly `header.length` bytes.  Returns
`(header, received_buf, remaining buffer)`. -/
def recvFromBuffer (buf : List Nat) : Option (Message × List Nat × List Nat) :=
  if Message.HEADER_LENGTH ≤ buf.length then
    let m := parseHeader buf
    if m.length ≤ buf.length then some (m, buf.take m.length, buf.drop m.length)
    else none
  else none

/-- The payload slice handed to `bincode::deserialize`:
`received_buf[16..message_length]` when `message_length > HEADER_LENGTH`,
the empty slice otherwise. -/
def framePayload (received : List Nat) (mlen : Nat) : List Nat :=
  if Message.HEADER_LENGTH < mlen then received.drop Message.HEADER_LENGTH else []

/-- Result of one `recv_message` call. -/
inductive RecvOut (α : Type) where
  | closed : RecvOut α
  | pending : List Nat → RecvOut α
  | frame : Message → Option Nat → α → List Nat → RecvOut α
  deriving Repr

/-- Deserialize the payload of a completed frame; a decode failure maps to
`invalid-data`.  `rest` is the buffer contents left for the next call. -/
def finishFrame {α : Type} (deser : List Nat → Option α) (m : Message)
    (fd : Option Nat) (received rest : List Nat) : Except ErrorKind (RecvOut α) :=
  match deser (framePayload received m.length) with
  | some a => .ok (.frame m fd a rest)
  | none => .error .invalidData

/-- `Handler::recv_message`, modelled up to one socket read: the handler's
buffered bytes are `st.readBuffer`; if the loop reaches the read, a single
`recv_vectored_with_ancillary` delivers `incoming` with ancillary `anc`
(a zero-length read means the peer closed and yields `Ok(None)`, i.e.
`closed`).  `pending` marks the state where the loop would issue another
read. -/
def recvMessage {α : Type} (st : HandlerState) (incoming : List Nat)
    (anc : SocketAncillary) (deser : List Nat → Option α) :
    Except ErrorKind (RecvOut α) :=
  if st.shutdown then .error .notConnected
  else
    match recvFromBuffer st.readBuffer with
    | some (m, received, rest) => finishFrame deser m none received rest
    | none =>
      if incoming.length = 0 then .ok .closed
      else
        let buf2 := st.readBuffer ++ incoming
        let fdRes := (scanFds (ancScmRightsFds anc) none).1
        match recvFromBuffer buf2 with
        | some (m, received, rest) => finishFrame deser m fdRes received rest
        | none => .ok (.pending buf2)

/-- `bincode` deserialization of the unit type: consumes no bytes and always
succeeds (checked by the repository's `test_empty_data`). -/
def unitDeser : List Nat → Option Unit := fun _ => some ()

/-! ### Process lifecycle (`process.rs`) -/

/-- A `Process` topology entry. -/
structure ProcessDef where
  name : String
  connect : Bool
  deriving DecidableEq, Repr

/-- The errors of `Parent::new` relevant to pre-fork validation. -/
inductive PError where
  | permissionDenied
  | missingParent
  deriving DecidableEq, Repr

/-- `Parent::new`, modelled up to the fork loop.  Returns the list of child
names that get forked together with the recorded peers `(name, has handler)`,
or an error.  The two validation errors are returned before the loop, so they
carry no fork events and no peers. -/
def parentNew (disablePrivdrop : Bool) (euid : Nat) (processes : List ProcessDef) :
    List String × Except PError (List (String × Bool)) :=
  if ¬disablePrivdrop ∧ euid ≠ 0 then ([], .error .permissionDenied)
  else if (processes.head?.map fun p => p.name) ≠ some "parent" then
    ([], .error .missingParent)
  else
    (processes.filterMap fun p => if p.connect then some p.name else none,
     .ok (processes.map fun p => (p.name, p.connect)))

/-- The pair set of `Parent::connect`: rows and columns of the adjacency
matrix from index 1 (`skip(1)` twice), keep `(a, b)` when
`processes[a][b].connect` and `a ≠ b`, normalise to `(min, max)`, and collect
into a `HashSet` (here: the deduplicating `Finset.image`). -/
def connectPairs (N : Nat) (adj : Nat → Nat → Bool) : Finset (Nat × Nat) :=
  ((Finset.range N ×ˢ Finset.range N).filter
      fun p => 1 ≤ p.1 ∧ 1 ≤ p.2 ∧ adj p.1 p.2 = true ∧ p.1 ≠ p.2).image
    fun p => if p.1 < p.2 then p else (p.2, p.1)

/-- One end of the socket pair `Handler::socketpair()` creates while
brokering the edge `(a, b)`: the kernel assigns the descriptor numbers, so
the ends are identified by the edge they were created for and by which of
the two halves they are. -/
inductive SocketEnd where
  | left (a b : Nat) : SocketEnd
  | right (a b : Nat) : SocketEnd
  deriving DecidableEq, Repr

/-- One `send_message_internal` call issued by `Parent::connect`: the peer
index it goes to, the control message, and the ancillary FD argument
(`Option<&Fd>`). -/
structure BrokerSend where
  target : Nat
  message : Message
  fd : Option SocketEnd
  deriving DecidableEq, Repr

/-- The brokering actions of the `Parent::connect` loop body
(`let (left, right) = Handler::socketpair()?;` followed by
`self[a].send_message_internal(Message::connect(b), Some(&left), &())` and
`self[b].send_message_internal(Message::connect(a), Some(&right), &())`):
for each pair `(a, b)` exactly one socket pair `(left, right)` is created and
two internal sends occur — `connect(b)` to peer `a` with `Some(left)` and
`connect(a)` to peer `b` with `Some(right)`. -/
def parentConnectSends (N : Nat) (adj : Nat → Nat → Bool) (pid : Nat) :
    Finset (BrokerSend × BrokerSend) :=
  (connectPairs N adj).image fun p =>
    (⟨p.1, Message.connect pid p.2, some (SocketEnd.left p.1 p.2)⟩,
     ⟨p.2, Message.connect pid p.1, some (SocketEnd.right p.1 p.2)⟩)

/-! ### Evaluation lemmas for the ancillary plane -/

set_option maxRecDepth 100000

/-- Ancillary buffer contents after `add_fds(&[f])` on a fresh 128-byte
buffer: one `SCM_RIGHTS` record (`cmsg_len = CMSG_LEN(4) = 20`, level and
type `1`), the descriptor bytes, and the untouched zero tail. -/
def oneFdBuf (f : Nat) : List Nat :=
  [20,0,0,0,0,0,0,0] ++ ([1,0,0,0] ++ ([1,0,0,0] ++ (toLE 4 f ++ List.replicate 108 0)))

theorem addFds_empty_one (f : Nat) :
    emptySendAncillary.addFds [f] = (true, ⟨oneFdBuf f, 24, false⟩) := by
  have hrep : writeBytes (List.replicate 128 0) 0 (List.replicate 24 0) =
      List.replicate 128 0 := by decide
  have hlast : lastCmsg (List.replicate 128 0) 24 = some 0 := by decide
  simp only [SocketAncillary.addFds, emptySendAncillary, SocketAncillary.new,
    addToAncillaryData, List.length_singleton]
  norm_num [cmsgSpace, cmsgAlign, cmsgHdrSize, List.length_replicate]
  rw [hrep, hlast]
  simp only [cmsgLen, cmsgAlign, cmsgHdrSize]
  norm_num
  have hcore : writeBytes (writeBytes (writeBytes (List.replicate 128 0) 0 (toLE 8 20)) 8
      (toLE 4 SOL_SOCKET)) 12 (toLE 4 SCM_RIGHTS) =
      [20,0,0,0,0,0,0,0,1,0,0,0,1,0,0,0] ++ List.replicate 112 0 := by decide
  rw [hcore]
  simp only [writeBytes, length_toLE]
  have h1 : (([20,0,0,0,0,0,0,0,1,0,0,0,1,0,0,0] : List Nat) ++
      List.replicate 112 0).take 16 = [20,0,0,0,0,0,0,0,1,0,0,0,1,0,0,0] := by decide
  have h2 : (([20,0,0,0,0,0,0,0,1,0,0,0,1,0,0,0] : List Nat) ++
      List.replicate 112 0).drop (16 + 4) = List.replicate 108 0 := by decide
  rw [h1, h2]
  simp [oneFdBuf]

theorem oneFdBuf_nxtHdr (f : Nat) : nxtHdr (oneFdBuf f) 24 0 = none := by
  have ht8 : (oneFdBuf f).take 8 = [20,0,0,0,0,0,0,0] := List.take_left' rfl
  simp only [nxtHdr, List.drop_zero, ht8]
  norm_num [fromLE, cmsgAlign, cmsgHdrSize]

theorem oneFdBuf_messages (f : Nat) :
    messagesFrom (oneFdBuf f) 24 24 0 = [(1, 1, toLE 4 f)] := by
  have ht8 : (oneFdBuf f).take 8 = [20,0,0,0,0,0,0,0] := List.take_left' rfl
  have hd8 : (oneFdBuf f).drop 8 =
      [1,0,0,0] ++ ([1,0,0,0] ++ (toLE 4 f ++ List.replicate 108 0)) := List.drop_left' rfl
  have hd12 : (oneFdBuf f).drop 12 = [1,0,0,0] ++ (toLE 4 f ++ List.replicate 108 0) := by
    rw [show (12 : Nat) = 8 + 4 from rfl, ← List.drop_drop, hd8]
    exact List.drop_left' rfl
  have hd16 : (oneFdBuf f).drop 16 = toLE 4 f ++ List.replicate 108 0 := by
    rw [show (16 : Nat) = 12 + 4 from rfl, ← List.drop_drop, hd12]
    exact List.drop_left' rfl
  have htf : (toLE 4 f ++ List.replicate 108 0).take 4 = toLE 4 f :=
    List.take_left' (length_toLE 4 f)
  rw [show (24 : Nat) = 23 + 1 from rfl]
  simp only [messagesFrom]
  norm_num [oneFdBuf_nxtHdr, List.drop_zero, ht8, hd8, hd12, hd16, htf, fromLE,
    cmsgLen, cmsgAlign, cmsgHdrSize]

theorem ancScmRightsFds_oneFdBuf (f : Nat) :
    ancScmRightsFds ⟨oneFdBuf f, 24, false⟩ = [f % 2 ^ 32] := by
  have h1 : ancMessages ⟨oneFdBuf f, 24, false⟩ = [(1, 1, toLE 4 f)] := by
    simp only [ancMessages]
    exact oneFdBuf_messages f
  have h2 : scmRightsFds (toLE 4 f) = [fromLE (toLE 4 f)] := rfl
  simp only [ancScmRightsFds, h1, SOL_SOCKET, SCM_RIGHTS]
  norm_num [List.filterMap_cons, h2, fromLE_toLE]

theorem ancScmRightsFds_emptySend : ancScmRightsFds emptySendAncillary = [] := rfl

theorem scanFds_some (rest : List Nat) (r : Nat) :
    scanFds rest (some r) = (some r, rest) := by
  induction rest with
  | nil => rfl
  | cons f t ih => simp [scanFds, ih]

theorem scanFds_cons (f : Nat) (rest : List Nat) :
    scanFds (f :: rest) none = (some f, rest) := by
  simp [scanFds, scanFds_some]

theorem scanFds_nil : scanFds [] none = (none, []) := rfl

/-! ### Evaluation lemmas for send and receive -/

/-- The ancillary state attached to a send: the one-FD record, or the fresh
empty buffer when no descriptor is attached. -/
def sendAncOf : Option Nat → SocketAncillary
  | some f => ⟨oneFdBuf f, 24, false⟩
  | none => emptySendAncillary

theorem sendInternal_eval (st : HandlerState) (msg : Message) (fd : Option Nat)
    (data : List Nat) (pid : Nat) (h0 : st.shutdown = false)
    (h1 : data.length + msg.length < 2 ^ 16) :
    sendMessageInternal st msg fd data pid =
      { wire := headerBytes ({ msg with
                 pid := pid % 2 ^ 32,
                 length := data.length + msg.length }) ++ data,
        anc := sendAncOf fd,
        result := if msg.length = 16 then .ok () else .error .writeZero } := by
  have hadd : (match fd with
      | some f => emptySendAncillary.addFds [f]
      | none => (true, emptySendAncillary)) = (true, sendAncOf fd) := by
    cases fd with
    | none => rfl
    | some f =>
      show emptySendAncillary.addFds [f] = (true, sendAncOf (some f))
      rw [addFds_empty_one]
      rfl
  simp only [sendMessageInternal, h0, Bool.false_eq_true, if_false]
  rw [if_pos h1, hadd]
  simp only [Bool.true_eq_false, if_false]
  have hwl : (headerBytes ({ msg with
      pid := pid % 2 ^ 32,
      length := data.length + msg.length }) ++ data).length = 16 + data.length := by
    simp [List.length_append, length_headerBytes]
  rw [hwl]
  by_cases hml : msg.length = 16
  · rw [if_pos hml, if_neg (by omega)]
  · rw [if_neg hml, if_pos (by omega)]

theorem recv_wire {α : Type} (deser : List Nat → Option α) (m : Message) (data : List Nat)
    (anc : SocketAncillary)
    (hid : m.id < 2 ^ 32) (hlen : m.length < 2 ^ 16) (hfl : m.flags < 2 ^ 16)
    (hpe : m.peer_id < 2 ^ 32) (hpi : m.pid < 2 ^ 32)
    (hm : m.length = 16 + data.length) :
    recvMessage ⟨false, []⟩ (headerBytes m ++ data) anc deser =
      finishFrame deser m ((scanFds (ancScmRightsFds anc) none).1) (headerBytes m ++ data) [] := by
  have hwlen : (headerBytes m ++ data).length = 16 + data.length := by
    simp [List.length_append, length_headerBytes]
  have hparse : parseHeader (headerBytes m ++ data) = m :=
    parseHeader_headerBytes m data hid hlen hfl hpe hpi
  have htake : (headerBytes m ++ data).take m.length = headerBytes m ++ data := by
    rw [hm, ← hwlen]
    exact List.take_length _
  have hdrop : (headerBytes m ++ data).drop m.length = [] := by
    rw [hm, ← hwlen]
    exact List.drop_length _
  have hrfb : recvFromBuffer (headerBytes m ++ data) =
      some (m, headerBytes m ++ data, []) := by
    simp only [recvFromBuffer, Message.HEADER_LENGTH, hwlen, hparse]
    rw [if_pos (by omega), if_pos (by omega), htake, hdrop]
  have hempty : recvFromBuffer ([] : List Nat) = none := by
    simp [recvFromBuffer, Message.HEADER_LENGTH]
  simp only [recvMessage, hempty]
  rw [if_neg (by simp)]
  simp only [List.nil_append, hrfb]
  rw [if_neg (by rw [hwlen]; omega)]

theorem framePayload_wire (m : Message) (data : List Nat)
    (hm : m.length = 16 + data.length) :
    framePayload (headerBytes m ++ data) m.length = data := by
  cases data with
  | nil =>
    simp only [framePayload, hm, Message.HEADER_LENGTH]
    norm_num
  | cons b t =>
    simp only [framePayload, hm, Message.HEADER_LENGTH]
    rw [if_pos (by simp)]
    exact List.drop_left' (length_headerBytes m)

/-! ### Claim theorems -/

/-- C1. Frame preservation round-trip: for every header built by
`Message::new` (so `length = 16`) with `id > 10` and in-range fields, every
serialized payload keeping the total frame within 65535 bytes, and every
optional FD, `send_message` succeeds and `recv_message` on the resulting
frame observes the sent `id`, `flags` and `peer_id`, the sender's PID as
`pid`, `length = 16 + |payload|`, the payload itself, the FD present iff one
was sent, and an empty remaining buffer. -/
theorem imsg_C1_frame_preservation
    {α : Type} (ser : α → List Nat) (deser : List Nat → Option α) (t : α)
    (msg : Message) (fd : Option Nat) (pid : Nat)
    (hnew : msg.length = 16)
    (hid10 : 10 < msg.id) (hid : msg.id < 2 ^ 32)
    (hfl : msg.flags < 2 ^ 16) (hpe : msg.peer_id < 2 ^ 32) (hpid : pid < 2 ^ 32)
    (hfd : fd.getD 0 < 2 ^ 32)
    (hround : deser (ser t) = some t)
    (hsize : 16 + (ser t).length ≤ 65535) :
    (sendMessage ⟨false, []⟩ msg fd (ser t) pid).result = .ok () ∧
    recvMessage ⟨false, []⟩ (sendMessage ⟨false, []⟩ msg fd (ser t) pid).wire
        (sendMessage ⟨false, []⟩ msg fd (ser t) pid).anc deser =
      .ok (.frame { id := msg.id, length := 16 + (ser t).length, flags := msg.flags,
                    peer_id := msg.peer_id, pid := pid } fd t []) := by
  have hpub : sendMessage ⟨false, []⟩ msg fd (ser t) pid =
      sendMessageInternal ⟨false, []⟩ msg fd (ser t) pid := by
    simp only [sendMessage, Message.RESERVED]
    rw [if_neg (by omega)]
  have h1 : (ser t).length + msg.length < 2 ^ 16 := by omega
  have heval := sendInternal_eval ⟨false, []⟩ msg fd (ser t) pid rfl h1
  have hm2 : ({ msg with
      pid := pid % 2 ^ 32,
      length := (ser t).length + msg.length } : Message) =
      { id := msg.id, length := 16 + (ser t).length, flags := msg.flags,
        peer_id := msg.peer_id, pid := pid } := by
    cases msg
    simp only [Message.mk.injEq] at hnew hid10 hid hfl hpe ⊢
    refine ⟨trivial, by omega, trivial, trivial, Nat.mod_eq_of_lt hpid⟩
  rw [hpub, heval, hm2, hnew]
  refine ⟨by norm_num, ?_⟩
  have hfds : (scanFds (ancScmRightsFds (sendAncOf fd)) none).1 = fd := by
    cases fd with
    | none =>
      simp [sendAncOf, ancScmRightsFds_emptySend, scanFds_nil]
    | some f =>
      have hf : f < 2 ^ 32 := hfd
      have hmod : f % 2 ^ 32 = f := Nat.mod_eq_of_lt hf
      simp [sendAncOf, ancScmRightsFds_oneFdBuf, scanFds_cons, hmod]
      exact lt_of_lt_of_le hf (by norm_num)
  rw [recv_wire deser _ (ser t) _ (by simpa using hid) (by simpa using (by omega : 16 + (ser t).length < 2 ^ 16))
      (by simpa using hfl) (by simpa using hpe) (by simpa using hpid) (by simp),
    hfds]
  simp only [finishFrame]
  have hfp : framePayload (headerBytes ({
      id := msg.id, length := 16 + (ser t).length, flags := msg.flags,
      peer_id := msg.peer_id, pid := pid } : Message) ++ ser t)
      (16 + (ser t).length) = ser t := framePayload_wire _ _ rfl
  rw [hfp, hround]

/-- C1 witness: a concrete unit-payload round-trip with id 23, FD 5, PID 42. -/
theorem imsg_C1_frame_preservation_witness :
    (sendMessage ⟨false, []⟩ ⟨23, 16, 0, 0, 0⟩ (some 5) [] 42).result = .ok () ∧
    recvMessage ⟨false, []⟩ (sendMessage ⟨false, []⟩ ⟨23, 16, 0, 0, 0⟩ (some 5) [] 42).wire
        (sendMessage ⟨false, []⟩ ⟨23, 16, 0, 0, 0⟩ (some 5) [] 42).anc
        (fun _ => some ()) =
      .ok (.frame ⟨23, 16, 0, 0, 42⟩ (some 5) () []) :=
  imsg_C1_frame_preservation (fun _ => ([] : List Nat)) (fun _ => some ()) ()
    ⟨23, 16, 0, 0, 0⟩ (some 5) 42 rfl (by norm_num) (by norm_num) (by norm_num)
    (by norm_num) (by norm_num) (by norm_num) rfl (by norm_num)

/-- C2 counterexample: the claim says every `id ≤ 10` is rejected with no
bytes written, but the source checks `message.id < Message::RESERVED` with
`RESERVED = 10`, so `id = 10` passes the check: a public send with `id = 10`
on an open handler succeeds and writes a 16-byte frame (the repository's own
test sends `Message::min()`, which has id 10, through the public API). -/
theorem imsg_C2_counterexample :
    (sendMessage ⟨false, []⟩ ⟨10, 16, 0, 0, 0⟩ none [] 7).result = .ok () ∧
    (sendMessage ⟨false, []⟩ ⟨10, 16, 0, 0, 0⟩ none [] 7).wire ≠ [] := by
  have hpub : sendMessage ⟨false, []⟩ ⟨10, 16, 0, 0, 0⟩ none [] 7 =
      sendMessageInternal ⟨false, []⟩ ⟨10, 16, 0, 0, 0⟩ none [] 7 := by
    simp only [sendMessage, Message.RESERVED]
    rw [if_neg (by norm_num)]
  rw [hpub, sendInternal_eval ⟨false, []⟩ ⟨10, 16, 0, 0, 0⟩ none [] 7 rfl (by norm_num)]
  refine ⟨by norm_num, ?_⟩
  intro h
  have := congrArg List.length h
  simp [length_headerBytes] at this

/-- C2 (amended): the public `send_message` rejects exactly the ids in
`[0, 9]` — with an error of kind `Other` ("Reserved message ID") and no bytes
written — and for every `id ≥ 10` the reserved-ID check passes and the call
proceeds to the internal send path. -/
theorem imsg_C2_reserved_id_rejection (st : HandlerState) (msg : Message)
    (fd : Option Nat) (data : List Nat) (pid : Nat) :
    (msg.id < 10 →
      sendMessage st msg fd data pid =
        { wire := [], anc := emptySendAncillary, result := .error .other }) ∧
    (10 ≤ msg.id →
      sendMessage st msg fd data pid = sendMessageInternal st msg fd data pid) := by
  constructor
  · intro h
    simp only [sendMessage, Message.RESERVED]
    rw [if_pos h]
  · intro h
    simp only [sendMessage, Message.RESERVED]
    rw [if_neg (by omega)]

/-- C2 witness: id 5 is rejected without touching the wire; id 11 reaches
the internal path. -/
theorem imsg_C2_reserved_id_rejection_witness :
    sendMessage ⟨false, []⟩ ⟨5, 16, 0, 0, 0⟩ none [] 7 =
      { wire := [], anc := emptySendAncillary, result := .error .other } ∧
    sendMessage ⟨false, []⟩ ⟨11, 16, 0, 0, 0⟩ none [] 7 =
      sendMessageInternal ⟨false, []⟩ ⟨11, 16, 0, 0, 0⟩ none [] 7 :=
  ⟨(imsg_C2_reserved_id_rejection ⟨false, []⟩ ⟨5, 16, 0, 0, 0⟩ none [] 7).1 (by norm_num),
   (imsg_C2_reserved_id_rejection ⟨false, []⟩ ⟨11, 16, 0, 0, 0⟩ none [] 7).2 (by norm_num)⟩

/-- C3 (code bug): `recv_message` performs no `length ≥ 16` validation.  On a
buffer holding a 16-byte header whose length field is 0 (id 99) and a
unit-typed payload, it returns `Ok(Some(header, None, ()))` — consuming zero
bytes — instead of failing with an invalid-data error as the specification
requires. -/
theorem imsg_C3_no_impossible_length_check :
    recvMessage ⟨false, [99,0,0,0, 0,0, 0,0, 0,0,0,0, 0,0,0,0]⟩ [] emptySendAncillary
        unitDeser =
      .ok (.frame ⟨99, 0, 0, 0, 0⟩ none () [99,0,0,0, 0,0, 0,0, 0,0,0,0, 0,0,0,0]) := by
  have hrfb : recvFromBuffer [99,0,0,0, 0,0, 0,0, 0,0,0,0, 0,0,0,0] =
      some (⟨99, 0, 0, 0, 0⟩, [], [99,0,0,0, 0,0, 0,0, 0,0,0,0, 0,0,0,0]) := by decide
  simp [recvMessage, hrfb, finishFrame, framePayload, unitDeser, Message.HEADER_LENGTH]

/-- C4 counterexample: after `shutdown()`, a public `send_message` with a
reserved id (here 5) fails with the reserved-ID error of kind `Other`, not
with a not-connected error — the reserved-ID check runs before the shutdown
check — refuting "every subsequent send_message … returns a not-connected
error". -/
theorem imsg_C4_counterexample :
    (sendMessage (HandlerState.shutdownOp ⟨false, []⟩) ⟨5, 16, 0, 0, 0⟩ none [] 7).result =
      .error .other ∧ ErrorKind.other ≠ ErrorKind.notConnected := by
  constructor
  · simp only [sendMessage, Message.RESERVED]
    rw [if_pos (by norm_num)]
  · decide

/-- C4 (amended): after `shutdown()` every internal send, every public send
with a non-reserved id (`≥ 10`), and every receive fail with `not-connected`
and write nothing, and a second `shutdown()` leaves the observable state
(shutdown flag, read buffer) unchanged.  (A public send with a reserved id
still fails with the reserved-ID `Other` error, as that check runs first.) -/
theorem imsg_C4_shutdown_invariant {α : Type} (st : HandlerState) (msg : Message)
    (fd : Option Nat) (data : List Nat) (pid : Nat)
    (incoming : List Nat) (anc : SocketAncillary) (deser : List Nat → Option α) :
    (sendMessageInternal st.shutdownOp msg fd data pid).result = .error .notConnected ∧
    (sendMessageInternal st.shutdownOp msg fd data pid).wire = [] ∧
    (10 ≤ msg.id →
      (sendMessage st.shutdownOp msg fd data pid).result = .error .notConnected ∧
      (sendMessage st.shutdownOp msg fd data pid).wire = []) ∧
    recvMessage st.shutdownOp incoming anc deser = .error .notConnected ∧
    st.shutdownOp.shutdownOp = st.shutdownOp := by
  have hint : sendMessageInternal st.shutdownOp msg fd data pid =
      { wire := [], anc := emptySendAncillary, result := .error .notConnected } := by
    simp [sendMessageInternal, HandlerState.shutdownOp]
  have hpub : 10 ≤ msg.id →
      sendMessage st.shutdownOp msg fd data pid =
        sendMessageInternal st.shutdownOp msg fd data pid := by
    intro h
    simp only [sendMessage, Message.RESERVED]
    rw [if_neg (by omega)]
  refine ⟨by rw [hint], by rw [hint], fun h => ⟨?_, ?_⟩, ?_, ?_⟩
  · rw [hpub h, hint]
  · rw [hpub h, hint]
  · simp [recvMessage, HandlerState.shutdownOp]
  · simp [HandlerState.shutdownOp]

/-- C4 witness: a concrete shut-down handler with a non-reserved id 23. -/
theorem imsg_C4_shutdown_invariant_witness :
    (sendMessageInternal (HandlerState.shutdownOp ⟨false, [1, 2]⟩) ⟨23, 16, 0, 0, 0⟩
        none [] 7).result = .error .notConnected ∧
    (sendMessage (HandlerState.shutdownOp ⟨false, [1, 2]⟩) ⟨23, 16, 0, 0, 0⟩
        none [] 7).result = .error .notConnected ∧
    recvMessage (HandlerState.shutdownOp ⟨false, [1, 2]⟩) [] emptySendAncillary unitDeser =
      .error .notConnected ∧
    (HandlerState.shutdownOp ⟨false, [1, 2]⟩).shutdownOp =
      HandlerState.shutdownOp ⟨false, [1, 2]⟩ := by
  have h := imsg_C4_shutdown_invariant (⟨false, [1, 2]⟩ : HandlerState) ⟨23, 16, 0, 0, 0⟩
    none [] 7 [] emptySendAncillary unitDeser
  exact ⟨h.1, (h.2.2.1 (by norm_num)).1, h.2.2.2.1, h.2.2.2.2⟩

/-- C5. At most one FD per received message: when the ancillary data of a
receive carries the SCM_RIGHTS descriptors `f :: rest` (n ≥ 1 of them, in
iteration order), the receive loop retains exactly the first descriptor `f`
and closes exactly the remaining ones, in order. -/
theorem imsg_C5_at_most_one_fd (anc : SocketAncillary) (f : Nat) (rest : List Nat)
    (h : ancScmRightsFds anc = f :: rest) :
    (scanFds (ancScmRightsFds anc) none).1 = some f ∧
    (scanFds (ancScmRightsFds anc) none).2 = rest := by
  rw [h, scanFds_cons]
  exact ⟨rfl, rfl⟩

/-- C5 witness: a concrete ancillary buffer carrying two descriptors 5 and 6:
5 is retained, 6 is closed. -/
theorem imsg_C5_at_most_one_fd_witness :
    (scanFds (ancScmRightsFds ⟨[24,0,0,0,0,0,0,0, 1,0,0,0, 1,0,0,0,
        5,0,0,0, 6,0,0,0], 24, false⟩) none).1 = some 5 ∧
    (scanFds (ancScmRightsFds ⟨[24,0,0,0,0,0,0,0, 1,0,0,0, 1,0,0,0,
        5,0,0,0, 6,0,0,0], 24, false⟩) none).2 = [6] :=
  imsg_C5_at_most_one_fd ⟨[24,0,0,0,0,0,0,0, 1,0,0,0, 1,0,0,0,
    5,0,0,0, 6,0,0,0], 24, false⟩ 5 [6] (by decide)

/-- C6. Brokering exactness: the pair set of `Parent::connect` contains the
normalised pair `(a, b)` exactly when `1 ≤ a < b < N` and at least one of the
two directions declares the edge (`HashSet` collection dedupes duplicate and
one-sided declarations into a single brokering, and only normalised pairs
occur); for each brokered pair the send set records exactly one action —
one socket pair `(left, right)` created for that edge, `Message::connect(b)`
(id 1, peer_id `b`) sent to peer `a` with `Some(left)` as the ancillary FD,
and `Message::connect(a)` sent to peer `b` with `Some(right)` — every element
of the send set arises from a brokered pair this way (so nothing is sent for
undeclared pairs and no send lacks its FD), and the send set has exactly one
element per brokered pair. -/
theorem imsg_C6_brokering_exactness (N : Nat) (adj : Nat → Nat → Bool)
    (pid a b : Nat) (ha : a < 2 ^ 32) (hb : b < 2 ^ 32) :
    ((a, b) ∈ connectPairs N adj ↔
      1 ≤ a ∧ a < b ∧ b < N ∧ (adj a b = true ∨ adj b a = true)) ∧
    ((a, b) ∈ connectPairs N adj →
      (⟨a, Message.connect pid b, some (SocketEnd.left a b)⟩,
       ⟨b, Message.connect pid a, some (SocketEnd.right a b)⟩) ∈
        parentConnectSends N adj pid) ∧
    (∀ s ∈ parentConnectSends N adj pid, ∃ x y, (x, y) ∈ connectPairs N adj ∧
      s = (⟨x, Message.connect pid y, some (SocketEnd.left x y)⟩,
           ⟨y, Message.connect pid x, some (SocketEnd.right x y)⟩)) ∧
    (parentConnectSends N adj pid).card = (connectPairs N adj).card ∧
    (Message.connect pid b).id = 1 ∧ (Message.connect pid b).peer_id = b ∧
    (Message.connect pid a).peer_id = a ∧ (Message.connect pid b).length = 16 := by
  refine ⟨?_, ?_, ?_, ?_, ?_, ?_, ?_, ?_⟩
  · constructor
    · intro h
      simp only [connectPairs, Finset.mem_image, Finset.mem_filter, Finset.mem_product,
        Finset.mem_range] at h
      obtain ⟨⟨x, y⟩, ⟨⟨hxN, hyN⟩, hx1, hy1, hadj, hxy⟩, hnorm⟩ := h
      by_cases hlt : x < y
      · rw [if_pos hlt] at hnorm
        obtain ⟨hax, hby⟩ := Prod.mk.injEq .. ▸ hnorm
        subst hax
        subst hby
        exact ⟨hx1, hlt, hyN, Or.inl hadj⟩
      · rw [if_neg hlt] at hnorm
        obtain ⟨hay, hbx⟩ := Prod.mk.injEq .. ▸ hnorm
        subst hay
        subst hbx
        exact ⟨hy1, by omega, hxN, Or.inr hadj⟩
    · rintro ⟨h1, hab, hbN, hadj | hadj⟩
      · simp only [connectPairs, Finset.mem_image, Finset.mem_filter, Finset.mem_product,
          Finset.mem_range]
        exact ⟨(a, b), ⟨⟨by omega, hbN⟩, h1, by omega, hadj, by omega⟩, by rw [if_pos hab]⟩
      · simp only [connectPairs, Finset.mem_image, Finset.mem_filter, Finset.mem_product,
          Finset.mem_range]
        exact ⟨(b, a), ⟨⟨hbN, by omega⟩, by omega, h1, hadj, by omega⟩,
          by rw [if_neg (by omega)]⟩
  · intro h
    simp only [parentConnectSends, Finset.mem_image]
    exact ⟨(a, b), h, rfl⟩
  · intro t ht
    simp only [parentConnectSends, Finset.mem_image] at ht
    obtain ⟨p, hp, hmap⟩ := ht
    refine ⟨p.1, p.2, ?_, hmap.symm⟩
    rwa [Prod.mk.eta]
  · refine Finset.card_image_of_injective _ ?_
    intro p q h
    obtain ⟨p1, p2⟩ := p
    obtain ⟨q1, q2⟩ := q
    have h1 : p1 = q1 := congrArg (fun t => t.1.target) h
    have h4 : p2 = q2 := congrArg (fun t => t.2.target) h
    subst h1
    subst h4
    rfl
  · rfl
  · exact Nat.mod_eq_of_lt hb
  · exact Nat.mod_eq_of_lt ha
  · rfl

/-- C6 witness: a 3-process topology where only `processes[1][2].connect` is
set (a one-sided declaration): the edge `(1, 2)` is brokered once, with a
single socket pair whose left end accompanies `connect(2)` to peer 1 and
whose right end accompanies `connect(1)` to peer 2. -/
theorem imsg_C6_brokering_exactness_witness :
    ((1, 2) ∈ connectPairs 3 (fun x y => x == 1 && y == 2) ↔
      1 ≤ 1 ∧ 1 < 2 ∧ 2 < 3 ∧
        ((fun x y : Nat => x == 1 && y == 2) 1 2 = true ∨
         (fun x y : Nat => x == 1 && y == 2) 2 1 = true)) ∧
    ((1, 2) ∈ connectPairs 3 (fun x y => x == 1 && y == 2) →
      (⟨1, Message.connect 7 2, some (SocketEnd.left 1 2)⟩,
       ⟨2, Message.connect 7 1, some (SocketEnd.right 1 2)⟩) ∈
        parentConnectSends 3 (fun x y => x == 1 && y == 2) 7) ∧
    (∀ s ∈ parentConnectSends 3 (fun x y => x == 1 && y == 2) 7, ∃ x y,
      (x, y) ∈ connectPairs 3 (fun x y => x == 1 && y == 2) ∧
      s = (⟨x, Message.connect 7 y, some (SocketEnd.left x y)⟩,
           ⟨y, Message.connect 7 x, some (SocketEnd.right x y)⟩)) ∧
    (parentConnectSends 3 (fun x y => x == 1 && y == 2) 7).card =
      (connectPairs 3 (fun x y => x == 1 && y == 2)).card ∧
    (Message.connect 7 2).id = 1 ∧ (Message.connect 7 2).peer_id = 2 ∧
    (Message.connect 7 1).peer_id = 1 ∧ (Message.connect 7 2).length = 16 :=
  imsg_C6_brokering_exactness 3 (fun x y => x == 1 && y == 2) 7 1 2
    (by norm_num) (by norm_num)

/-- C7 counterexample: `add_fds` on a full ancillary state whose truncated
flag is set returns `false` but clears the truncated flag — the
`SocketAncillary` is not left completely unchanged, refuting the claim. -/
theorem imsg_C7_counterexample :
    ((⟨List.replicate 8 0, 0, true⟩ : SocketAncillary).addFds [3]).1 = false ∧
    ((⟨List.replicate 8 0, 0, true⟩ : SocketAncillary).addFds [3]).2.truncated ≠
      (⟨List.replicate 8 0, 0, true⟩ : SocketAncillary).truncated := by
  decide

/-- C7 (amended): if the byte count `n·4` overflows `u32`, or the aligned
space `CMSG_SPACE(n·4)` is computed without `u32` wrap-around
(`CMSG_SPACE(n·4) < 2^32`) and does not fit the remaining capacity, then
`add_fds` returns `false`; and — for every count that overflows `u32` or
whose space does not wrap — a failing `add_fds` leaves the buffer contents
and used length unchanged, but the truncated flag is unconditionally cleared
to `false` on entry, so it ends `false` rather than at its previous value.
(`libc::CMSG_SPACE` returns `c_uint`: for `n·4` just below `2^32` the space
wraps modulo `2^32` to a tiny value, the capacity check can pass, and the
call can mutate the buffer, so neither guarantee extends to the wrap
region.) -/
theorem imsg_C7_addfds_failure (anc : SocketAncillary) (fds : List Nat) :
    ((fds.length * 4 ≥ 2 ^ 32 ∨
        (cmsgSpace (fds.length * 4) < 2 ^ 32 ∧
          anc.buffer.length < cmsgSpace (fds.length * 4) + anc.length)) →
      (anc.addFds fds).1 = false) ∧
    ((fds.length * 4 ≥ 2 ^ 32 ∨ cmsgSpace (fds.length * 4) < 2 ^ 32) →
      (anc.addFds fds).1 = false →
      (anc.addFds fds).2.buffer = anc.buffer ∧
      (anc.addFds fds).2.length = anc.length ∧
      (anc.addFds fds).2.truncated = false) := by
  have hspace : 16 ≤ cmsgSpace (fds.length * 4) := by
    simp only [cmsgSpace, cmsgAlign, cmsgHdrSize]
    omega
  constructor
  · intro hcond
    simp only [SocketAncillary.addFds, addToAncillaryData]
    split_ifs with h1 h2 h3 h4
    all_goals try rfl
    exfalso
    rcases hcond with hc | ⟨hnw, hc⟩
    · omega
    · omega
  · intro hcond hfalse
    simp only [SocketAncillary.addFds, addToAncillaryData] at hfalse ⊢
    split_ifs at hfalse ⊢ with h1 h2 h3 h4
    all_goals try exact ⟨rfl, rfl, trivial⟩
    rcases hcond with hc | hnw
    · exfalso
      omega
    · simp only [lastCmsg] at hfalse
      rw [if_pos (by simp only [cmsgHdrSize]; omega)] at hfalse
      simp at hfalse

/-- C7 witness: an 8-byte buffer with the truncated flag set cannot hold
`CMSG_SPACE(4) = 24` bytes (no wrap: 24 < 2^32): the call fails, the buffer
and length are untouched, and the truncated flag ends `false`. -/
theorem imsg_C7_addfds_failure_witness :
    ((⟨List.replicate 8 0, 0, true⟩ : SocketAncillary).addFds [3]).1 = false ∧
    ((⟨List.replicate 8 0, 0, true⟩ : SocketAncillary).addFds [3]).2.buffer =
      List.replicate 8 0 ∧
    ((⟨List.replicate 8 0, 0, true⟩ : SocketAncillary).addFds [3]).2.length = 0 ∧
    ((⟨List.replicate 8 0, 0, true⟩ : SocketAncillary).addFds [3]).2.truncated = false := by
  have h1 := (imsg_C7_addfds_failure ⟨List.replicate 8 0, 0, true⟩ [3]).1
    (Or.inr ⟨by norm_num [cmsgSpace, cmsgAlign, cmsgHdrSize],
             by norm_num [cmsgSpace, cmsgAlign, cmsgHdrSize]⟩)
  have h2 := (imsg_C7_addfds_failure ⟨List.replicate 8 0, 0, true⟩ [3]).2
    (Or.inr (by norm_num [cmsgSpace, cmsgAlign, cmsgHdrSize])) h1
  exact ⟨h1, h2.1, h2.2.1, h2.2.2⟩

/-- C8. Pre-fork validation: `Parent::new` returns `permission-denied`
whenever privdrop is enabled (not disabled) and the effective UID is nonzero,
and — once the permission check passes — returns `missing-parent` whenever
the first topology entry is not named "parent"; in both cases no fork event
has occurred and no peer is recorded (the error is returned before the fork
loop). -/
theorem imsg_C8_prefork_validation (d : Bool) (euid : Nat)
    (procs : List ProcessDef) :
    (¬d = true ∧ euid ≠ 0 →
      parentNew d euid procs = ([], .error .permissionDenied)) ∧
    ((d = true ∨ euid = 0) →
      (procs.head?.map fun p => p.name) ≠ some "parent" →
      parentNew d euid procs = ([], .error .missingParent)) := by
  constructor
  · intro h
    simp only [parentNew]
    rw [if_pos h]
  · intro h1 h2
    simp only [parentNew]
    rw [if_neg (by tauto), if_pos h2]

/-- C8 witness: privdrop enabled with euid 1000 gives permission-denied; a
topology starting with "child" under disabled privdrop gives missing-parent —
in both cases with no fork events and no peers. -/
theorem imsg_C8_prefork_validation_witness :
    parentNew false 1000 [⟨"parent", false⟩, ⟨"child", true⟩] =
      ([], .error .permissionDenied) ∧
    parentNew true 1000 [⟨"child", true⟩] = ([], .error .missingParent) :=
  ⟨(imsg_C8_prefork_validation false 1000 [⟨"parent", false⟩, ⟨"child", true⟩]).1
      (by simp),
   (imsg_C8_prefork_validation true 1000 [⟨"child", true⟩]).2 (Or.inl rfl)
      (by simp)⟩

/-- C9. The length stamped into the wire header by the send path is the
caller-supplied header's length field plus the serialized payload length;
the actual frame is `16 + |payload|` bytes, so the declared and actual sizes
agree exactly when the caller's length field is 16 — the value
`Message::new` initialises it to. -/
theorem imsg_C9_length_stamping (st : HandlerState) (msg : Message)
    (fd : Option Nat) (data : List Nat) (pid : Nat) (i : Nat)
    (h0 : st.shutdown = false) (h1 : data.length + msg.length < 2 ^ 16)
    (hid : msg.id < 2 ^ 32) (hfl : msg.flags < 2 ^ 16) (hpe : msg.peer_id < 2 ^ 32) :
    (parseHeader (sendMessageInternal st msg fd data pid).wire).length =
      msg.length + data.length ∧
    (sendMessageInternal st msg fd data pid).wire.length = 16 + data.length ∧
    ((parseHeader (sendMessageInternal st msg fd data pid).wire).length =
        (sendMessageInternal st msg fd data pid).wire.length ↔ msg.length = 16) ∧
    (Message.new pid i).length = 16 := by
  rw [sendInternal_eval st msg fd data pid h0 h1]
  have hparse : parseHeader (headerBytes ({ msg with
      pid := pid % 2 ^ 32,
      length := data.length + msg.length }) ++ data) = { msg with
      pid := pid % 2 ^ 32,
      length := data.length + msg.length } :=
    parseHeader_headerBytes _ data (by simpa using hid) (by simpa using h1)
      (by simpa using hfl) (by simpa using hpe)
      (by simpa using Nat.mod_lt pid (by norm_num))
  have hwl : (headerBytes ({ msg with
      pid := pid % 2 ^ 32,
      length := data.length + msg.length }) ++ data).length = 16 + data.length := by
    simp [List.length_append, length_headerBytes]
  refine ⟨?_, ?_, ?_, rfl⟩
  · simp only [hparse]
    simp only [Nat.add_comm]
  · exact hwl
  · rw [hparse, hwl]
    constructor
    · intro h
      have : ({ msg with
        pid := pid % 2 ^ 32,
        length := data.length + msg.length } : Message).length =
          data.length + msg.length := rfl
      omega
    · intro h
      have : ({ msg with
        pid := pid % 2 ^ 32,
        length := data.length + msg.length } : Message).length =
          data.length + msg.length := rfl
      omega

/-- C9 witness: a caller-supplied header with length field 20 and a 2-byte
payload: the declared length is 22 while the frame is 18 bytes; the equality
characterisation instantiates to `22 = 18 ↔ 20 = 16`. -/
theorem imsg_C9_length_stamping_witness :
    (parseHeader (sendMessageInternal ⟨false, []⟩ ⟨23, 20, 0, 0, 0⟩ none [1, 2] 9).wire).length =
      20 + 2 ∧
    (sendMessageInternal ⟨false, []⟩ ⟨23, 20, 0, 0, 0⟩ none [1, 2] 9).wire.length = 16 + 2 ∧
    ((parseHeader (sendMessageInternal ⟨false, []⟩ ⟨23, 20, 0, 0, 0⟩ none [1, 2] 9).wire).length =
        (sendMessageInternal ⟨false, []⟩ ⟨23, 20, 0, 0, 0⟩ none [1, 2] 9).wire.length ↔
      (20 : Nat) = 16) ∧
    (Message.new 9 23).length = 16 := by
  have h := imsg_C9_length_stamping ⟨false, []⟩ ⟨23, 20, 0, 0, 0⟩ none [1, 2] 9 23
    rfl (by norm_num) (by norm_num) (by norm_num) (by norm_num)
  exact h

/-- C10 counterexample: with a 16-byte buffer whose header declares length 1,
the first `recv_message` consumes one byte and returns the header, but the
next call does not re-deliver the same stale header without reading: only 15
buffered bytes remain, so the loop reads from the socket (here the peer is
closed, so the call returns `Ok(None)`), and no frame can be produced from
the buffer alone. -/
theorem imsg_C10_counterexample :
    recvMessage ⟨false, [7,0,0,0, 1,0, 0,0, 0,0,0,0, 0,0,0,0]⟩ [] emptySendAncillary
        unitDeser =
      .ok (.frame ⟨7, 1, 0, 0, 0⟩ none () [0,0,0, 1,0, 0,0, 0,0,0,0, 0,0,0,0]) ∧
    recvFromBuffer [0,0,0, 1,0, 0,0, 0,0,0,0, 0,0,0,0] = none ∧
    recvMessage ⟨false, [0,0,0, 1,0, 0,0, 0,0,0,0, 0,0,0,0]⟩ [] emptySendAncillary
        unitDeser = .ok .closed := by
  have hrfb : recvFromBuffer [7,0,0,0, 1,0, 0,0, 0,0,0,0, 0,0,0,0] =
      some (⟨7, 1, 0, 0, 0⟩, [7], [0,0,0, 1,0, 0,0, 0,0,0,0, 0,0,0,0]) := by decide
  have hrfb2 : recvFromBuffer [0,0,0, 1,0, 0,0, 0,0,0,0, 0,0,0,0] = none := by decide
  refine ⟨?_, hrfb2, ?_⟩
  · simp [recvMessage, hrfb, finishFrame, framePayload, unitDeser, Message.HEADER_LENGTH]
  · simp [recvMessage, hrfb2]

/-- C10 (amended): when the read buffer holds a complete 16-byte header whose
length field is `ℓ < 16`, `recv_message` returns
`Ok(Some(header, None, unit))` after consuming only `ℓ` bytes, so part or all
of the parsed header stays in the buffer; in the particular case `ℓ = 0`
nothing is consumed, and every subsequent call returns the same header again
without reading from the socket.  (For `1 ≤ ℓ ≤ 15` the buffer shifts by `ℓ`
bytes, so later calls parse different bytes or must read the socket.) -/
theorem imsg_C10_short_length_stale_buffer (buf incoming : List Nat)
    (anc : SocketAncillary)
    (h16 : 16 ≤ buf.length) (hl : (parseHeader buf).length < 16) :
    recvMessage ⟨false, buf⟩ incoming anc unitDeser =
      .ok (.frame (parseHeader buf) none () (buf.drop (parseHeader buf).length)) ∧
    ((parseHeader buf).length = 0 →
      buf.drop (parseHeader buf).length = buf ∧
      ∀ (incoming2 : List Nat) (anc2 : SocketAncillary),
        recvMessage ⟨false, buf⟩ incoming2 anc2 unitDeser =
          .ok (.frame (parseHeader buf) none () buf)) := by
  have hrfb : recvFromBuffer buf =
      some (parseHeader buf, buf.take (parseHeader buf).length,
        buf.drop (parseHeader buf).length) := by
    simp only [recvFromBuffer, Message.HEADER_LENGTH]
    rw [if_pos h16, if_pos (by omega)]
  have hmain : ∀ (inc : List Nat) (a : SocketAncillary),
      recvMessage ⟨false, buf⟩ inc a unitDeser =
        .ok (.frame (parseHeader buf) none () (buf.drop (parseHeader buf).length)) := by
    intro inc a
    simp only [recvMessage, hrfb]
    rw [if_neg (by simp)]
    simp only [finishFrame, framePayload, Message.HEADER_LENGTH]
    rw [if_neg (by omega)]
    rfl
  refine ⟨hmain incoming anc, fun h0 => ⟨by rw [h0, List.drop_zero], fun inc2 a2 => ?_⟩⟩
  rw [hmain inc2 a2, h0, List.drop_zero]

/-- C10 witness: a 16-byte buffer whose header declares length 0 (id 4):
the call returns the parsed header, consumes nothing, and a repeat call with
different socket input returns the same header again. -/
theorem imsg_C10_short_length_stale_buffer_witness :
    recvMessage ⟨false, [4,0,0,0, 0,0, 0,0, 0,0,0,0, 0,0,0,0]⟩ [] emptySendAncillary
        unitDeser =
      .ok (.frame (parseHeader [4,0,0,0, 0,0, 0,0, 0,0,0,0, 0,0,0,0]) none ()
        ([4,0,0,0, 0,0, 0,0, 0,0,0,0, 0,0,0,0].drop
          (parseHeader [4,0,0,0, 0,0, 0,0, 0,0,0,0, 0,0,0,0]).length)) ∧
    recvMessage ⟨false, [4,0,0,0, 0,0, 0,0, 0,0,0,0, 0,0,0,0]⟩ [9, 9] emptySendAncillary
        unitDeser =
      .ok (.frame (parseHeader [4,0,0,0, 0,0, 0,0, 0,0,0,0, 0,0,0,0]) none ()
        [4,0,0,0, 0,0, 0,0, 0,0,0,0, 0,0,0,0]) := by
  have h := imsg_C10_short_length_stale_buffer [4,0,0,0, 0,0, 0,0, 0,0,0,0, 0,0,0,0]
    [] emptySendAncillary (by norm_num) (by decide)
  exact ⟨h.1, (h.2 (by decide)).2 [9, 9] emptySendAncillary⟩

end Privsep
